import Mathlib

/-!
Verification of the GrantWriter worker-loop core (`main.py` and
`handlers/requirement_extraction.py`).

The worker polls a task queue, claims tasks, dispatches them to handlers,
reports progress, finalizes each task as completed or failed, and requeues
stale `processing` tasks on startup.

Modelling conventions:
- The Supabase store is a `Store` holding the `task_queue` table and the
  `grant_requirements` table.
- A raw store write is `tableUpdate`, returning `Except String Store`: the
  `.error` case models the Python call raising an exception.  Every wrapper
  in `main.py` catches all exceptions (`except Exception`), so the wrappers
  (`update_task_progress`, `complete_task`, `fail_task`, ...) are total
  functions `... → Store`; whether the underlying write raises is an
  explicit `fault : Bool` parameter (the environment's choice).
- Timestamps are integers (seconds); `datetime.now(...)` is an explicit
  `now` parameter.
- JSON payloads (`result_data`, handler results) are association lists of
  string keys to natural numbers, which covers every payload the claims
  mention.
- A handler is defunctionalized: instead of receiving a progress callback,
  it returns the list of `(progress, message)` pairs it would pass to the
  callback, together with its outcome — `Except.ok payload` for a normal
  return, `Except.error msg` for raising an exception whose string
  representation is `msg`.  `process_task` then performs the progress
  writes and the finalization, emitting an `Event` trace recording every
  call it makes to `update_task_progress` / `complete_task` / `fail_task`.
-/

namespace GrantWriter

/-- JSON-like result payload: association list of string keys to numbers. -/
abbrev Payload := List (String × Nat)

/-- The `task_data` payload of a task.  Fields are optional because the
Python handlers access them with `dict.get` and a default. -/
structure TaskData where
  requirement_ids : Option (List String)
  language : Option String
deriving Repr, DecidableEq

/-- One row of the `task_queue` table, with the fields `main.py` reads and
writes. -/
structure TaskRecord where
  id : String
  task_type : String
  task_data : TaskData
  user_id : Option String
  project_id : Option String
  status : String
  progress : Nat
  progress_message : Option String
  worker_id : Option String
  started_at : Option Int
  completed_at : Option Int
  result_data : Option Payload
  error_message : Option String
deriving Repr, DecidableEq

/-- One row of the `grant_requirements` table, with the fields
`handle_requirement_extraction` reads. -/
structure GrantRequirement where
  id : String
  name : Option String
  file_path : Option String
  extracted_checklist : Option (List String)
deriving Repr, DecidableEq

/-- The store state: the two tables the worker core touches. -/
structure Store where
  task_queue : List TaskRecord
  grant_requirements : List GrantRequirement
deriving Repr, DecidableEq

/-- `POLL_INTERVAL = 5  # seconds` from `main.py`. -/
def POLL_INTERVAL : Nat := 5

/-- `db.table("task_queue").update({...}).eq("id", task_id).execute()`:
applies `f` to every row whose `id` matches.  `fault = true` models the
call raising an exception (network/store failure), in which case nothing
is written. -/
def tableUpdate (fault : Bool) (st : Store) (task_id : String)
    (f : TaskRecord → TaskRecord) : Except String Store :=
  if fault then .error "store write failed"
  else .ok { st with task_queue :=
    st.task_queue.map (fun t => if t.id = task_id then f t else t) }

/-- `update_task_progress` from `main.py`: writes `progress` and
`progress_message`; any exception is caught and logged. -/
def update_task_progress (fault : Bool) (st : Store) (task_id : String)
    (progress : Nat) (message : String) : Store :=
  match tableUpdate fault st task_id
      (fun t => { t with progress := progress, progress_message := some message }) with
  | .ok st2 => st2
  | .error _ => st

/-- `complete_task` from `main.py`: writes `status = "completed"`,
`progress = 100`, `result_data`, `completed_at = now`; any exception is
caught and logged. -/
def complete_task (fault : Bool) (now : Int) (st : Store) (task_id : String)
    (result_data : Payload) : Store :=
  match tableUpdate fault st task_id
      (fun t => { t with status := "completed", progress := 100,
                         result_data := some result_data,
                         completed_at := some now }) with
  | .ok st2 => st2
  | .error _ => st

/-- `fail_task` from `main.py`: writes `status = "failed"`,
`error_message`, `completed_at = now`; any exception is caught and
logged. -/
def fail_task (fault : Bool) (now : Int) (st : Store) (task_id : String)
    (error_message : String) : Store :=
  match tableUpdate fault st task_id
      (fun t => { t with status := "failed",
                         error_message := some error_message,
                         completed_at := some now }) with
  | .ok st2 => st2
  | .error _ => st

/-- Trace of the store-mutating calls `process_task` makes: each progress
callback invocation and each call to `complete_task` / `fail_task`.  An
event records that the call was MADE; whether the write inside it
succeeded is governed separately by the fault flags. -/
inductive Event where
  | progressUpdate (task_id : String) (progress : Nat) (message : String)
  | completeCall (task_id : String) (result : Payload)
  | failCall (task_id : String) (error : String)
deriving Repr, DecidableEq

/-- Is the event a `complete_task` call? -/
def Event.isComplete : Event → Bool
  | .completeCall _ _ => true
  | _ => false

/-- Is the event a `fail_task` call? -/
def Event.isFail : Event → Bool
  | .failCall _ _ => true
  | _ => false

/-- Is the event a finalization (`complete_task` or `fail_task`) call? -/
def Event.isFinal (e : Event) : Bool := e.isComplete || e.isFail

/-- A task handler, defunctionalized: from the store at invocation time and
the task parameters, it yields the `(progress, message)` pairs it passes to
`progress_callback` and its outcome (`ok` = normal return with a result
payload, `error` = raises an exception with that string representation). -/
abbrev Handler :=
  Store → TaskData → Option String → Option String →
    (List (Nat × String)) × Except String Payload

/-- The handler registry built in `process_task`: one handler per
task-type key. -/
structure Handlers where
  infobit_extraction : Handler
  infobit_generation : Handler
  evaluation : Handler
  generation : Handler
  requirement_extraction : Handler

/-- `handlers.get(task_type)` on the dictionary literal in
`process_task`. -/
def handlersGet (hs : Handlers) (task_type : String) : Option Handler :=
  if task_type = "infobit_extraction" then some hs.infobit_extraction
  else if task_type = "infobit_generation" then some hs.infobit_generation
  else if task_type = "evaluation" then some hs.evaluation
  else if task_type = "generation" then some hs.generation
  else if task_type = "requirement_extraction" then some hs.requirement_extraction
  else none

/-- Environment of one dispatch: the current time and the fault choices of
the store (whether the i-th progress write raises, and whether the
finalization writes raise). -/
structure Env where
  now : Int
  progressFault : Nat → Bool
  completeFault : Bool
  failFault : Bool

/-- Perform the handler's progress-callback invocations in order:
each one calls `update_task_progress` (which swallows its own write
faults) and is recorded in the event trace. -/
def runProgress (pf : Nat → Bool) (task_id : String) :
    List (Nat × String) → Store → Nat → Store × List Event
  | [], st, _ => (st, [])
  | (p, m) :: rest, st, idx =>
    let st1 := update_task_progress (pf idx) st task_id p m
    let (st2, evs) := runProgress pf task_id rest st1 (idx + 1)
    (st2, .progressUpdate task_id p m :: evs)

/-- `process_task` from `main.py`: look the task type up in the registry;
if absent, fail the task with an "Unknown task type" message and return;
otherwise run the handler (its progress callbacks write through
`update_task_progress`), then route a normal return to `complete_task`
and a raised exception to `fail_task`.  The `try/except Exception`
boundary means this function is total: no exception escapes. -/
def process_task (env : Env) (hs : Handlers) (st : Store)
    (task : TaskRecord) : Store × List Event :=
  match handlersGet hs task.task_type with
  | none =>
    (fail_task env.failFault env.now st task.id
       ("Unknown task type: " ++ task.task_type),
     [.failCall task.id ("Unknown task type: " ++ task.task_type)])
  | some h =>
    let (calls, outcome) := h st task.task_data task.user_id task.project_id
    let (st1, evs) := runProgress env.progressFault task.id calls st 0
    match outcome with
    | .ok r =>
      (complete_task env.completeFault env.now st1 task.id r,
       evs ++ [.completeCall task.id r])
    | .error e =>
      (fail_task env.failFault env.now st1 task.id e,
       evs ++ [.failCall task.id e])

/-- Ids of the pending rows of a task list, in table order. -/
def pendingIds (l : List TaskRecord) : List String :=
  (l.filter (fun t => t.status == "pending")).map (fun t => t.id)

/-- Claim the first pending row of the list: mark it
`processing`, stamp `worker_id` and `started_at`, and return the claimed
row together with the updated list; `none` when no row is pending. -/
def claimFirstPending (worker : String) (now : Int) :
    List TaskRecord → Option (TaskRecord × List TaskRecord)
  | [] => none
  | t :: ts =>
    if t.status == "pending" then
      let t2 := { t with status := "processing", worker_id := some worker,
                         started_at := some now }
      some (t2, t2 :: ts)
    else
      match claimFirstPending worker now ts with
      | none => none
      | some (c, ts2) => some (c, t :: ts2)

/-- Modelled from the spec: the `claim_next_task` database RPC, which is
not part of the repository's Python sources (it lives in the Supabase
database).  Per §4.1 it "atomically selects one pending task (oldest
first, or store-defined order), transitions it to processing, stamps
worker_id and started_at, and returns it; returns nothing if no pending
task exists".  Atomicity makes any set of concurrent calls equivalent to
running them one after another, so concurrent claiming is modelled as
sequential composition of this step. -/
def claim_next_task (worker : String) (now : Int) (st : Store) :
    Store × Option TaskRecord :=
  match claimFirstPending worker now st.task_queue with
  | none => (st, none)
  | some (c, l2) => ({ st with task_queue := l2 }, some c)

/-- `claim_task` from `main.py`: calls the `claim_next_task` RPC and
returns the claimed row, or `None` when the RPC returned no data; any
exception from the RPC is caught, logged, and turned into `None`. -/
def claim_task (fault : Bool) (worker : String) (now : Int) (st : Store) :
    Store × Option TaskRecord :=
  if fault then (st, none)
  else claim_next_task worker now st

/-- Run a sequence of claim calls (one per worker in the list) against the
store; returns the final store and the claimed rows in call order.  By the
atomicity of `claim_next_task`, this covers every concurrent schedule. -/
def runClaims (now : Int) : List String → Store → Store × List TaskRecord
  | [], st => (st, [])
  | w :: ws, st =>
    match claim_next_task w now st with
    | (st1, some t) =>
      let (st2, rest) := runClaims now ws st1
      (st2, t :: rest)
    | (st1, none) =>
      let (st2, rest) := runClaims now ws st1
      (st2, rest)

/-- What one iteration of the `while True` loop in `main` did. -/
inductive IterResult where
  | processed (events : List Event)
  | slept (seconds : Nat)
deriving Repr, DecidableEq

/-- One iteration of the main loop in `main.py`: claim a task; if one is
returned, dispatch it with `process_task`; otherwise sleep for
`POLL_INTERVAL` seconds and go round again. -/
def loopIteration (claimFault : Bool) (env : Env) (hs : Handlers)
    (worker : String) (st : Store) : Store × IterResult :=
  match claim_task claimFault worker env.now st with
  | (st1, some t) =>
    let (st2, evs) := process_task env hs st1 t
    (st2, .processed evs)
  | (st1, none) => (st1, .slept POLL_INTERVAL)

/-- The staleness test of `recover_stale_tasks`: `status = "processing"`
and `started_at` strictly before `now - 2 minutes` (a NULL `started_at`
never satisfies the SQL `lt` filter). -/
def staleCond (now : Int) (t : TaskRecord) : Bool :=
  t.status == "processing" &&
    (match t.started_at with
     | some s => decide (s < now - 120)
     | none => false)

/-- The reset `recover_stale_tasks` writes to one stale row: back to
`pending`, `progress = 0`, a requeue message, `worker_id` cleared. -/
def requeueUpdate (t : TaskRecord) : TaskRecord :=
  { t with status := "pending", progress := 0,
           progress_message := some "Requeued after worker restart",
           worker_id := none }

/-- The per-row update loop of `recover_stale_tasks`: one
`update ... eq("id", id)` per stale id, in order.  If the i-th write
raises (`uf i`), the exception aborts the loop (it is caught by the
surrounding `try`), keeping the writes already made. -/
def applyRequeues (uf : Nat → Bool) : List String → Nat → Store → Store
  | [], _, st => st
  | i :: rest, idx, st =>
    match tableUpdate (uf idx) st i requeueUpdate with
    | .error _ => st
    | .ok st2 => applyRequeues uf rest (idx + 1) st2

/-- `recover_stale_tasks` from `main.py`: select the rows with
`status = "processing"` and `started_at < now - 2 minutes`, then reset
each one by id.  `selectFault` models the select raising; any exception
is caught and logged. -/
def recover_stale_tasks (selectFault : Bool) (uf : Nat → Bool) (now : Int)
    (st : Store) : Store :=
  if selectFault then st
  else
    let stale := st.task_queue.filter (staleCond now)
    applyRequeues uf (stale.map (fun t => t.id)) 0 st

/-- Result of one AI extraction call
(`RequirementsExtractor.process_requirement_document`): the extracted
checklist items.  The extractor itself is an external AI collaborator and
is passed in as a function (`none` models a falsy/`None` result). -/
structure ExtractResult where
  checklist : List String
deriving Repr, DecidableEq

/-- `handle_requirement_extraction` from
`handlers/requirement_extraction.py`.  `extractor` abstracts the external
AI call.  With specific `requirement_ids`, each is fetched by id; with an
empty list, all rows with `extracted_checklist` NULL are fetched.  With no
requirements to process, it reports 100% and returns zero counts;
otherwise it runs the extraction loop (the per-item progress percentage
`int((i / len) * 90)` is modelled as natural division `i * 90 / len`). -/
def handle_requirement_extraction (extractor : String → String → Option ExtractResult) :
    Handler := fun st task_data _ _ =>
  let requirement_ids := task_data.requirement_ids.getD []
  let requirements :=
    if requirement_ids.isEmpty then
      st.grant_requirements.filter (fun r => r.extracted_checklist.isNone)
    else
      requirement_ids.foldr
        (fun rid acc =>
          match (st.grant_requirements.filter (fun r => r.id = rid)).head? with
          | some r => r :: acc
          | none => acc) []
  if requirements.isEmpty then
    ([(0, "Starting extraction..."), (100, "No requirements to process")],
     .ok [("requirements_processed", 0), ("items_extracted", 0)])
  else
    let n := requirements.length
    let loop := requirements.enum.foldl
      (fun (acc : Nat × Nat × List (Nat × String)) (p : Nat × GrantRequirement) =>
        let (processed, items, calls) := acc
        let (i, req) := p
        let calls := calls ++ [(i * 90 / n, "Processing: " ++ req.name.getD "unknown")]
        match req.file_path with
        | none => (processed, items, calls)
        | some fp =>
          match extractor req.id fp with
          | some res =>
            if res.checklist.isEmpty then (processed, items, calls)
            else (processed + 1, items + res.checklist.length, calls)
          | none => (processed, items, calls))
      (0, 0, [])
    ([(0, "Starting extraction...")] ++ loop.2.2 ++ [(100, "Extraction complete")],
     .ok [("requirements_processed", loop.1), ("items_extracted", loop.2.1)])

/-! ## Helper lemmas -/

lemma runProgress_events (pf : Nat → Bool) (tid : String) :
    ∀ (calls : List (Nat × String)) (st : Store) (idx : Nat),
      (runProgress pf tid calls st idx).2 =
        calls.map (fun pm => Event.progressUpdate tid pm.1 pm.2) := by
  intro calls
  induction calls with
  | nil => intro st idx; rfl
  | cons c rest ih =>
    intro st idx
    rcases c with ⟨p, m⟩
    simp [runProgress, ih]

lemma update_task_progress_status (fault : Bool) (st : Store) (tid : String)
    (p : Nat) (m : String) :
    (update_task_progress fault st tid p m).task_queue.map TaskRecord.status =
      st.task_queue.map TaskRecord.status ∧
    (update_task_progress fault st tid p m).grant_requirements =
      st.grant_requirements := by
  cases fault with
  | true => exact ⟨rfl, rfl⟩
  | false =>
    constructor
    · simp only [update_task_progress, tableUpdate, if_neg Bool.false_ne_true,
        List.map_map]
      apply List.map_congr_left
      intro t _
      by_cases hid : t.id = tid <;> simp [hid]
    · rfl

lemma runProgress_status (pf : Nat → Bool) (tid : String) :
    ∀ (calls : List (Nat × String)) (st : Store) (idx : Nat),
      (runProgress pf tid calls st idx).1.task_queue.map TaskRecord.status =
        st.task_queue.map TaskRecord.status ∧
      (runProgress pf tid calls st idx).1.grant_requirements =
        st.grant_requirements := by
  intro calls
  induction calls with
  | nil => intro st idx; exact ⟨rfl, rfl⟩
  | cons c rest ih =>
    intro st idx
    rcases c with ⟨p, m⟩
    have h1 := update_task_progress_status (pf idx) st tid p m
    have h2 := ih (update_task_progress (pf idx) st tid p m) (idx + 1)
    simp only [runProgress]
    exact ⟨h2.1.trans h1.1, h2.2.trans h1.2⟩

lemma process_task_events_registered (env : Env) (hs : Handlers) (st : Store)
    (task : TaskRecord) (h : Handler)
    (hreg : handlersGet hs task.task_type = some h) :
    (process_task env hs st task).2 =
      (h st task.task_data task.user_id task.project_id).1.map
        (fun pm => Event.progressUpdate task.id pm.1 pm.2) ++
      [match (h st task.task_data task.user_id task.project_id).2 with
       | .ok r => Event.completeCall task.id r
       | .error e => Event.failCall task.id e] := by
  unfold process_task
  rw [hreg]
  rcases hh : h st task.task_data task.user_id task.project_id with ⟨calls, outcome⟩
  cases outcome <;> simp [runProgress_events, hh]

lemma process_task_store_registered (env : Env) (hs : Handlers) (st : Store)
    (task : TaskRecord) (h : Handler)
    (hreg : handlersGet hs task.task_type = some h) :
    (process_task env hs st task).1 =
      (match (h st task.task_data task.user_id task.project_id).2 with
       | .ok r =>
         complete_task env.completeFault env.now
           (runProgress env.progressFault task.id
             (h st task.task_data task.user_id task.project_id).1 st 0).1
           task.id r
       | .error e =>
         fail_task env.failFault env.now
           (runProgress env.progressFault task.id
             (h st task.task_data task.user_id task.project_id).1 st 0).1
           task.id e) := by
  unfold process_task
  rw [hreg]
  rcases hh : h st task.task_data task.user_id task.project_id with ⟨calls, outcome⟩
  cases outcome <;> simp [hh]

lemma countP_progress_events_zero (tid : String) (q : Event → Bool)
    (hq : ∀ i p m, q (Event.progressUpdate i p m) = false)
    (l : List (Nat × String)) :
    (l.map (fun pm => Event.progressUpdate tid pm.1 pm.2)).countP q = 0 := by
  apply List.countP_eq_zero.mpr
  intro e he
  rcases List.mem_map.mp he with ⟨pm, _, rfl⟩
  simp [hq]

/-! ## Concrete objects used by the witnesses -/

/-- A trivial handler: no progress calls, returns the empty payload. -/
def handlerOkNil : Handler := fun _ _ _ _ => ([], .ok [])

/-- A registry mapping all five task types to the trivial handler. -/
def hs0 : Handlers :=
  ⟨handlerOkNil, handlerOkNil, handlerOkNil, handlerOkNil, handlerOkNil⟩

/-- A fault-free environment at time 1000. -/
def env0 : Env := ⟨1000, fun _ => false, false, false⟩

/-- An empty task payload. -/
def taskData0 : TaskData := ⟨none, none⟩

/-- A claimed `generation` task. -/
def task0 : TaskRecord :=
  ⟨"t1", "generation", taskData0, none, none, "processing", 0, none,
   some "w1", some 900, none, none, none⟩

/-- A store holding only `task0`. -/
def st0 : Store := ⟨[task0], []⟩

/-! ## Claim theorems -/

/-- C1: For every dispatched task whose task_type is in the Handler
Registry, exactly one of `complete_task` / `fail_task` is invoked, exactly
once: a normal handler return yields one `complete_task` call carrying the
returned payload and no `fail_task` call; a handler exception yields one
`fail_task` call carrying the exception's string representation and no
`complete_task` call.  (`process_task` is a total function, so no
exception propagates out of the dispatch boundary.) -/
theorem dispatch_terminal_exclusivity (env : Env) (hs : Handlers)
    (st : Store) (task : TaskRecord) (h : Handler)
    (hreg : handlersGet hs task.task_type = some h) :
    ((process_task env hs st task).2.countP Event.isFinal = 1) ∧
    (∀ r, (h st task.task_data task.user_id task.project_id).2 = Except.ok r →
      ((process_task env hs st task).2.countP Event.isComplete = 1 ∧
       (process_task env hs st task).2.countP Event.isFail = 0 ∧
       Event.completeCall task.id r ∈ (process_task env hs st task).2)) ∧
    (∀ e, (h st task.task_data task.user_id task.project_id).2 = Except.error e →
      ((process_task env hs st task).2.countP Event.isFail = 1 ∧
       (process_task env hs st task).2.countP Event.isComplete = 0 ∧
       Event.failCall task.id e ∈ (process_task env hs st task).2)) := by
  have hev := process_task_events_registered env hs st task h hreg
  have hz : ∀ q : Event → Bool, (∀ i p m, q (Event.progressUpdate i p m) = false) →
      ((h st task.task_data task.user_id task.project_id).1.map
        (fun pm => Event.progressUpdate task.id pm.1 pm.2)).countP q = 0 :=
    fun q hq => countP_progress_events_zero task.id q hq _
  rcases hout : (h st task.task_data task.user_id task.project_id).2 with e | r
  · rw [hout] at hev
    refine ⟨?_, ?_, ?_⟩
    · rw [hev, List.countP_append, hz _ (fun _ _ _ => rfl)]
      rfl
    · intro r hr
      cases hr
    · intro e2 he2
      cases he2
      refine ⟨?_, ?_, ?_⟩
      · rw [hev, List.countP_append, hz _ (fun _ _ _ => rfl)]
        rfl
      · rw [hev, List.countP_append, hz _ (fun _ _ _ => rfl)]
        rfl
      · rw [hev]
        exact List.mem_append_right _ (List.mem_singleton.mpr rfl)
  · rw [hout] at hev
    refine ⟨?_, ?_, ?_⟩
    · rw [hev, List.countP_append, hz _ (fun _ _ _ => rfl)]
      rfl
    · intro r2 hr2
      cases hr2
      refine ⟨?_, ?_, ?_⟩
      · rw [hev, List.countP_append, hz _ (fun _ _ _ => rfl)]
        rfl
      · rw [hev, List.countP_append, hz _ (fun _ _ _ => rfl)]
        rfl
      · rw [hev]
        exact List.mem_append_right _ (List.mem_singleton.mpr rfl)
    · intro e2 he2
      cases he2

/-- Witness for C1: dispatching `task0` (a registered `generation` task)
through the trivial registry makes exactly one finalization call. -/
theorem dispatch_terminal_exclusivity_witness :
    handlersGet hs0 task0.task_type = some handlerOkNil ∧
    (process_task env0 hs0 st0 task0).2.countP Event.isFinal = 1 :=
  ⟨rfl, (dispatch_terminal_exclusivity env0 hs0 st0 task0 handlerOkNil rfl).1⟩

/-- C3: Dispatching a task whose task_type is not one of the five
registered types invokes no handler (the result does not depend on the
registry contents at all), and makes a single `fail_task` call whose
error message names the unknown task type. -/
theorem unknown_type_short_circuit (env : Env) (hs : Handlers) (st : Store)
    (task : TaskRecord)
    (hty : task.task_type ∉ ["infobit_extraction", "infobit_generation",
      "evaluation", "generation", "requirement_extraction"]) :
    (∀ hs2 : Handlers, process_task env hs2 st task = process_task env hs st task) ∧
    (process_task env hs st task).2 =
      [Event.failCall task.id ("Unknown task type: " ++ task.task_type)] ∧
    (process_task env hs st task).1 =
      fail_task env.failFault env.now st task.id
        ("Unknown task type: " ++ task.task_type) := by
  simp only [List.mem_cons, List.mem_singleton, not_or] at hty
  obtain ⟨h1, h2, h3, h4, h5, -⟩ := hty
  have hn : ∀ hs2 : Handlers, handlersGet hs2 task.task_type = none := by
    intro hs2
    unfold handlersGet
    rw [if_neg h1, if_neg h2, if_neg h3, if_neg h4, if_neg h5]
  refine ⟨fun hs2 => ?_, ?_, ?_⟩
  · unfold process_task
    rw [hn hs2, hn hs]
  · unfold process_task
    rw [hn hs]
  · unfold process_task
    rw [hn hs]

/-- A task with the unregistered type "bogus". -/
def taskBogus : TaskRecord :=
  ⟨"t2", "bogus", taskData0, none, none, "processing", 0, none,
   some "w1", some 900, none, none, none⟩

/-- Witness for C3: dispatching a "bogus" task yields exactly the one
"Unknown task type" failure call. -/
theorem unknown_type_short_circuit_witness :
    taskBogus.task_type ∉ ["infobit_extraction", "infobit_generation",
      "evaluation", "generation", "requirement_extraction"] ∧
    (process_task env0 hs0 st0 taskBogus).2 =
      [Event.failCall taskBogus.id
        ("Unknown task type: " ++ taskBogus.task_type)] :=
  ⟨by decide,
   (unknown_type_short_circuit env0 hs0 st0 taskBogus (by decide)).2.1⟩

/-- C5: With a healthy store write, `complete_task` sets
`status = "completed"`, `progress = 100`, `result_data` to the given
payload, and `completed_at = now` on the row with the given id (all other
rows and fields untouched), and `fail_task` sets `status = "failed"`,
`error_message` to the given message, and `completed_at = now` on the row
with the given id. -/
theorem finalize_writes_fields (now : Int) (st : Store) (task_id : String)
    (r : Payload) (msg : String) :
    (complete_task false now st task_id r).task_queue =
      st.task_queue.map (fun t => if t.id = task_id then
        { t with status := "completed", progress := 100,
                 result_data := some r, completed_at := some now } else t) ∧
    (fail_task false now st task_id msg).task_queue =
      st.task_queue.map (fun t => if t.id = task_id then
        { t with status := "failed", error_message := some msg,
                 completed_at := some now } else t) :=
  ⟨rfl, rfl⟩

/-- C10: `fail_task` writes only `status`, `error_message` and
`completed_at`: every other field of every row — in particular `progress`
and `progress_message`, i.e. whatever was last reported before the
failure — is unchanged, whether or not the write faults. -/
theorem fail_task_frame (fault : Bool) (now : Int) (st : Store)
    (task_id : String) (msg : String) :
    (fail_task fault now st task_id msg).task_queue.map
      (fun t => (t.id, t.task_type, t.task_data, t.user_id, t.project_id,
                 t.progress, t.progress_message, t.worker_id, t.started_at,
                 t.result_data)) =
      st.task_queue.map
        (fun t => (t.id, t.task_type, t.task_data, t.user_id, t.project_id,
                   t.progress, t.progress_message, t.worker_id, t.started_at,
                   t.result_data)) ∧
    (fail_task fault now st task_id msg).grant_requirements =
      st.grant_requirements := by
  cases fault with
  | true => exact ⟨rfl, rfl⟩
  | false =>
    constructor
    · simp only [fail_task, tableUpdate, if_neg Bool.false_ne_true, List.map_map]
      apply List.map_congr_left
      intro t _
      by_cases hid : t.id = task_id <;> simp [hid]
    · rfl

lemma update_task_progress_fault (st : Store) (tid : String) (p : Nat)
    (m : String) : update_task_progress true st tid p m = st := rfl

lemma complete_task_fault (now : Int) (st : Store) (tid : String)
    (r : Payload) : complete_task true now st tid r = st := rfl

lemma fail_task_fault (now : Int) (st : Store) (tid : String)
    (m : String) : fail_task true now st tid m = st := rfl

/-- C6: A failing progress write is caught inside `update_task_progress`
(the store is simply left unchanged) and never escalates: the
finalization calls of a dispatch are the same under any two choices of
progress-write faults, and a normally-returning handler never leads to a
`fail_task` call even when every progress write fails. -/
theorem progress_failure_non_escalation (now : Int) (cf ff : Bool)
    (pf1 pf2 : Nat → Bool) (hs : Handlers) (st : Store) (task : TaskRecord)
    (h : Handler) (hreg : handlersGet hs task.task_type = some h) :
    (∀ (st2 : Store) (tid : String) (p : Nat) (m : String),
       update_task_progress true st2 tid p m = st2) ∧
    ((process_task ⟨now, pf1, cf, ff⟩ hs st task).2.filter Event.isFinal =
      (process_task ⟨now, pf2, cf, ff⟩ hs st task).2.filter Event.isFinal) ∧
    (∀ r, (h st task.task_data task.user_id task.project_id).2 = Except.ok r →
       (process_task ⟨now, pf1, cf, ff⟩ hs st task).2.countP Event.isFail = 0) := by
  refine ⟨fun _ _ _ _ => rfl, ?_, ?_⟩
  · rw [process_task_events_registered ⟨now, pf1, cf, ff⟩ hs st task h hreg,
        process_task_events_registered ⟨now, pf2, cf, ff⟩ hs st task h hreg]
  · intro r hout
    rw [process_task_events_registered ⟨now, pf1, cf, ff⟩ hs st task h hreg,
        hout, List.countP_append,
        countP_progress_events_zero task.id Event.isFail (fun _ _ _ => rfl)]
    rfl

/-- Witness for C6: with the trivial registry, the finalization calls are
identical whether every progress write fails or none does. -/
theorem progress_failure_non_escalation_witness :
    handlersGet hs0 task0.task_type = some handlerOkNil ∧
    ((process_task ⟨1000, fun _ => true, false, false⟩ hs0 st0 task0).2.filter
        Event.isFinal =
      (process_task ⟨1000, fun _ => false, false, false⟩ hs0 st0 task0).2.filter
        Event.isFinal) :=
  ⟨rfl,
   (progress_failure_non_escalation 1000 false false (fun _ => true)
     (fun _ => false) hs0 st0 task0 handlerOkNil rfl).2.1⟩

/-- C9: A raising store write inside `complete_task` or `fail_task` is
caught there (the store is left unchanged, nothing is re-raised or
retried), and the dispatch still treats the task as finalized: exactly one
finalization call is still made, and — since the failed terminal write
changed nothing and progress writes never touch `status` — every row's
stored status is exactly what it was before the dispatch (a `processing`
task stays `processing`, with no terminal status written). -/
theorem finalize_write_failure_swallowed (env : Env) (hs : Handlers)
    (st : Store) (task : TaskRecord) (h : Handler)
    (hreg : handlersGet hs task.task_type = some h)
    (hcf : env.completeFault = true) (hff : env.failFault = true) :
    (∀ (now : Int) (st2 : Store) (tid : String) (r : Payload),
       complete_task true now st2 tid r = st2) ∧
    (∀ (now : Int) (st2 : Store) (tid : String) (m : String),
       fail_task true now st2 tid m = st2) ∧
    ((process_task env hs st task).2.countP Event.isFinal = 1) ∧
    ((process_task env hs st task).1.task_queue.map TaskRecord.status =
       st.task_queue.map TaskRecord.status) := by
  refine ⟨fun _ _ _ _ => rfl, fun _ _ _ _ => rfl, ?_, ?_⟩
  · rw [process_task_events_registered env hs st task h hreg,
        List.countP_append,
        countP_progress_events_zero task.id Event.isFinal (fun _ _ _ => rfl)]
    rcases (h st task.task_data task.user_id task.project_id).2 with e | r <;> rfl
  · have hst := process_task_store_registered env hs st task h hreg
    rcases hout : (h st task.task_data task.user_id task.project_id).2 with e | r
    · rw [hout] at hst
      simp only [hff] at hst
      rw [hst, fail_task_fault]
      exact (runProgress_status _ _ _ _ _).1
    · rw [hout] at hst
      simp only [hcf] at hst
      rw [hst, complete_task_fault]
      exact (runProgress_status _ _ _ _ _).1

/-- An environment whose terminal writes all fail. -/
def envFaulty : Env := ⟨1000, fun _ => false, true, true⟩

/-- Witness for C9: with failing terminal writes, the dispatch of `task0`
still makes its one finalization call and leaves its `processing` status
in place. -/
theorem finalize_write_failure_swallowed_witness :
    handlersGet hs0 task0.task_type = some handlerOkNil ∧
    (process_task envFaulty hs0 st0 task0).2.countP Event.isFinal = 1 ∧
    (process_task envFaulty hs0 st0 task0).1.task_queue.map TaskRecord.status =
      st0.task_queue.map TaskRecord.status :=
  ⟨rfl,
   (finalize_write_failure_swallowed envFaulty hs0 st0 task0 handlerOkNil
     rfl rfl rfl).2.2.1,
   (finalize_write_failure_swallowed envFaulty hs0 st0 task0 handlerOkNil
     rfl rfl rfl).2.2.2⟩

lemma claimFirstPending_spec (w : String) (now : Int) :
    ∀ l : List TaskRecord,
      (claimFirstPending w now l = none → pendingIds l = []) ∧
      (∀ c l2, claimFirstPending w now l = some (c, l2) →
        pendingIds l = c.id :: pendingIds l2 ∧ c.status = "processing") := by
  intro l
  induction l with
  | nil => exact ⟨fun _ => rfl, fun c l2 h => by cases h⟩
  | cons t ts ih =>
    by_cases hp : t.status == "pending"
    · constructor
      · intro h
        simp only [claimFirstPending, if_pos hp] at h
        cases h
      · intro c l2 h
        simp only [claimFirstPending, if_pos hp, Option.some.injEq,
          Prod.mk.injEq] at h
        obtain ⟨hc, hl⟩ := h
        subst hc
        subst hl
        constructor
        · simp [pendingIds, List.filter_cons, hp]
        · rfl
    · constructor
      · intro h
        simp only [claimFirstPending, if_neg hp] at h
        cases hrec : claimFirstPending w now ts with
        | none =>
          have := ih.1 hrec
          simp [pendingIds, List.filter_cons, hp, pendingIds] at this ⊢
          exact this
        | some p =>
          rw [hrec] at h
          cases h
      · intro c l2 h
        simp only [claimFirstPending, if_neg hp] at h
        cases hrec : claimFirstPending w now ts with
        | none => rw [hrec] at h; cases h
        | some p =>
          rcases p with ⟨c2, ts2⟩
          rw [hrec] at h
          simp only [Option.some.injEq, Prod.mk.injEq] at h
          obtain ⟨hc, hl⟩ := h
          subst hc
          subst hl
          have hih := ih.2 c2 ts2 hrec
          constructor
          · simpa [pendingIds, List.filter_cons, hp] using hih.1
          · exact hih.2

/-- C4: A raising claim call is caught inside `claim_task` and treated
exactly like "no pending task": the wrapper returns no task and leaves the
store alone, and the loop iteration sleeps for the fixed 5-second
`POLL_INTERVAL` and hands the loop its next state instead of
terminating — the same iteration outcome as polling a store with no
pending task. -/
theorem claim_error_treated_as_no_task (env : Env) (hs : Handlers)
    (worker : String) (st : Store)
    (hnp : pendingIds st.task_queue = []) :
    (∀ st2 : Store, claim_task true worker env.now st2 = (st2, none)) ∧
    claim_task false worker env.now st = (st, none) ∧
    (∀ st2 : Store, loopIteration true env hs worker st2 =
      (st2, IterResult.slept POLL_INTERVAL)) ∧
    loopIteration false env hs worker st = (st, IterResult.slept POLL_INTERVAL) ∧
    POLL_INTERVAL = 5 := by
  have hcn : claimFirstPending worker env.now st.task_queue = none := by
    cases hc : claimFirstPending worker env.now st.task_queue with
    | none => rfl
    | some p =>
      rcases p with ⟨c, l2⟩
      have hsp :=
        ((claimFirstPending_spec worker env.now st.task_queue).2 c l2 hc).1
      rw [hnp] at hsp
      cases hsp
  refine ⟨fun _ => rfl, ?_, fun _ => rfl, ?_, rfl⟩
  · simp [claim_task, claim_next_task, hcn]
  · simp [loopIteration, claim_task, claim_next_task, hcn]

/-- Witness for C4: over `st0`, whose only task is `processing`, a
faulting claim and a fault-free claim both make the iteration sleep for
the 5-second poll interval. -/
theorem claim_error_treated_as_no_task_witness :
    pendingIds st0.task_queue = [] ∧
    loopIteration true env0 hs0 "w1" st0 = (st0, IterResult.slept POLL_INTERVAL) ∧
    loopIteration false env0 hs0 "w1" st0 = (st0, IterResult.slept POLL_INTERVAL) :=
  ⟨by decide,
   (claim_error_treated_as_no_task env0 hs0 "w1" st0 (by decide)).2.2.1 st0,
   (claim_error_treated_as_no_task env0 hs0 "w1" st0 (by decide)).2.2.2.1⟩

lemma applyRequeues_nofault : ∀ (ids : List String) (idx : Nat) (st : Store),
    (applyRequeues (fun _ => false) ids idx st).task_queue =
      st.task_queue.map (fun t => if t.id ∈ ids then requeueUpdate t else t) ∧
    (applyRequeues (fun _ => false) ids idx st).grant_requirements =
      st.grant_requirements := by
  intro ids
  induction ids with
  | nil =>
    intro idx st
    exact ⟨by simp [applyRequeues], rfl⟩
  | cons i rest ih =>
    intro idx st
    simp only [applyRequeues, tableUpdate, if_neg Bool.false_ne_true]
    obtain ⟨h1, h2⟩ := ih (idx + 1)
      ({ st with task_queue :=
          st.task_queue.map (fun t => if t.id = i then requeueUpdate t else t) })
    refine ⟨?_, h2⟩
    rw [h1]
    simp only [List.map_map]
    apply List.map_congr_left
    intro t _
    by_cases hid : t.id = i
    · by_cases hmem : t.id ∈ rest <;>
        simp [Function.comp, hid, requeueUpdate, hmem]
    · by_cases hmem : t.id ∈ rest <;>
        simp [Function.comp, hid, List.mem_cons, hmem]

/-- C2: With no store faults, startup recovery rewrites exactly the stale
rows: a row with `status = "processing"` and `started_at` strictly older
than `now − 2 minutes` becomes `status = "pending"`, `progress = 0`,
`worker_id = NULL`, with the requeue message; every other row — including
a `processing` row started within the threshold — is left untouched
(assuming table ids are unique, as they are for a primary key). -/
theorem recovery_resets_exactly_stale (now : Int) (st : Store)
    (hids : (st.task_queue.map TaskRecord.id).Nodup) :
    (recover_stale_tasks false (fun _ => false) now st).task_queue =
      st.task_queue.map
        (fun t => if staleCond now t then requeueUpdate t else t) ∧
    (recover_stale_tasks false (fun _ => false) now st).grant_requirements =
      st.grant_requirements ∧
    (∀ t : TaskRecord, (requeueUpdate t).status = "pending" ∧
       (requeueUpdate t).progress = 0 ∧
       (requeueUpdate t).worker_id = none ∧
       (requeueUpdate t).progress_message =
         some "Requeued after worker restart") := by
  have hsel : recover_stale_tasks false (fun _ => false) now st =
      applyRequeues (fun _ => false)
        ((st.task_queue.filter (staleCond now)).map (fun t => t.id)) 0 st := by
    simp [recover_stale_tasks]
  refine ⟨?_, ?_, fun t => ⟨rfl, rfl, rfl, rfl⟩⟩
  · rw [hsel, (applyRequeues_nofault _ 0 st).1]
    apply List.map_congr_left
    intro t ht
    by_cases hst : staleCond now t
    · rw [if_pos, if_pos hst]
      exact List.mem_map.mpr ⟨t, List.mem_filter.mpr ⟨ht, hst⟩, rfl⟩
    · rw [if_neg, if_neg hst]
      intro hmem
      rcases List.mem_map.mp hmem with ⟨u, hu, hid⟩
      rcases List.mem_filter.mp hu with ⟨huin, hucond⟩
      have heq : u = t := List.inj_on_of_nodup_map hids huin ht hid
      rw [heq] at hucond
      exact hst hucond
  · rw [hsel]
    exact (applyRequeues_nofault _ 0 st).2

/-- A task stuck in `processing` since time 400 (10 minutes before
`now = 1000`). -/
def taskStale : TaskRecord :=
  ⟨"a", "generation", taskData0, none, none, "processing", 50, some "half",
   some "w1", some 400, none, none, none⟩

/-- A task in `processing` since time 940 (1 minute before `now = 1000`). -/
def taskFresh : TaskRecord :=
  ⟨"b", "generation", taskData0, none, none, "processing", 10, none,
   some "w2", some 940, none, none, none⟩

/-- A store holding one stale and one fresh `processing` task. -/
def stRec : Store := ⟨[taskStale, taskFresh], []⟩

/-- Witness for C2: at `now = 1000`, recovery over `stRec` resets the
3-minutes-plus-old task and leaves the 1-minute-old task unchanged. -/
theorem recovery_resets_exactly_stale_witness :
    (stRec.task_queue.map TaskRecord.id).Nodup ∧
    (recover_stale_tasks false (fun _ => false) 1000 stRec).task_queue =
      stRec.task_queue.map
        (fun t => if staleCond 1000 t then requeueUpdate t else t) :=
  ⟨by decide, (recovery_resets_exactly_stale 1000 stRec (by decide)).1⟩

/-- C7: Because the store's claim operation is atomic, any set of
concurrent claim calls is equivalent to running them in some sequential
order (`runClaims`).  For every such sequence against a store whose
pending ids are distinct: no task is handed to two callers (the claimed
ids are pairwise distinct), exactly `min K n` tasks are claimed for `K`
pending tasks and `n` calls, and every claimed task was pending and is
returned in `processing` status — so at most one worker ever holds a
given task in `processing`. -/
theorem concurrent_claims_mutual_exclusion (now : Int)
    (workers : List String) (st : Store)
    (hnd : (pendingIds st.task_queue).Nodup) :
    ((runClaims now workers st).2.map TaskRecord.id).Nodup ∧
    (runClaims now workers st).2.length =
      min (pendingIds st.task_queue).length workers.length ∧
    (∀ t ∈ (runClaims now workers st).2,
      t.id ∈ pendingIds st.task_queue ∧ t.status = "processing") := by
  induction workers generalizing st with
  | nil =>
    refine ⟨List.nodup_nil, by simp [runClaims], ?_⟩
    intro t ht
    simp [runClaims] at ht
  | cons w ws ih =>
    cases hc : claimFirstPending w now st.task_queue with
    | none =>
      have hemp : pendingIds st.task_queue = [] :=
        (claimFirstPending_spec w now st.task_queue).1 hc
      have hrc : runClaims now (w :: ws) st = runClaims now ws st := by
        rcases hr : runClaims now ws st with ⟨st2, rest⟩
        simp [runClaims, claim_next_task, hc, hr]
      rw [hrc]
      obtain ⟨i1, i2, i3⟩ := ih st hnd
      refine ⟨i1, ?_, i3⟩
      rw [i2, hemp]
      simp
    | some p =>
      rcases p with ⟨c, l2⟩
      have hsp := (claimFirstPending_spec w now st.task_queue).2 c l2 hc
      have hpend : pendingIds st.task_queue = c.id :: pendingIds l2 := hsp.1
      have hq1 : pendingIds ({ st with task_queue := l2 } : Store).task_queue =
          pendingIds l2 := rfl
      have hnd2 : (pendingIds ({ st with task_queue := l2 } : Store).task_queue).Nodup := by
        rw [hq1]
        rw [hpend] at hnd
        exact hnd.of_cons
      have hnotin : c.id ∉ pendingIds l2 := by
        rw [hpend] at hnd
        exact (List.nodup_cons.mp hnd).1
      have hrc : runClaims now (w :: ws) st =
          ((runClaims now ws ({ st with task_queue := l2 })).1,
           c :: (runClaims now ws ({ st with task_queue := l2 })).2) := by
        rcases hr : runClaims now ws ({ st with task_queue := l2 } : Store)
          with ⟨st2, rest⟩
        simp [runClaims, claim_next_task, hc, hr]
      obtain ⟨i1, i2, i3⟩ := ih ({ st with task_queue := l2 }) hnd2
      rw [hrc]
      refine ⟨?_, ?_, ?_⟩
      · simp only [List.map_cons]
        refine List.nodup_cons.mpr ⟨?_, i1⟩
        intro hmem
        rcases List.mem_map.mp hmem with ⟨t, htmem, hid⟩
        have hm := (i3 t htmem).1
        rw [hq1] at hm
        rw [hid] at hm
        exact hnotin hm
      · rw [hq1] at i2
        simp only [List.length_cons, i2, hpend]
        omega
      · intro t ht
        rcases List.mem_cons.mp ht with rfl | htl
        · exact ⟨by rw [hpend]; exact List.mem_cons_self _ _, hsp.2⟩
        · obtain ⟨hm, hs⟩ := i3 t htl
          rw [hq1] at hm
          exact ⟨by rw [hpend]; exact List.mem_cons_of_mem _ hm, hs⟩

/-- A pending `generation` task. -/
def taskPendA : TaskRecord :=
  ⟨"p1", "generation", taskData0, none, none, "pending", 0, none, none,
   none, none, none, none⟩

/-- A pending `evaluation` task. -/
def taskPendB : TaskRecord :=
  ⟨"p2", "evaluation", taskData0, none, none, "pending", 0, none, none,
   none, none, none, none⟩

/-- A store with two pending tasks. -/
def stPend : Store := ⟨[taskPendA, taskPendB], []⟩

/-- Witness for C7: three claim calls against two pending tasks claim
exactly two distinct tasks. -/
theorem concurrent_claims_mutual_exclusion_witness :
    (pendingIds stPend.task_queue).Nodup ∧
    ((runClaims 1000 ["w1", "w2", "w3"] stPend).2.map TaskRecord.id).Nodup ∧
    (runClaims 1000 ["w1", "w2", "w3"] stPend).2.length =
      min (pendingIds stPend.task_queue).length 3 :=
  ⟨by decide,
   (concurrent_claims_mutual_exclusion 1000 ["w1", "w2", "w3"] stPend
     (by decide)).1,
   (concurrent_claims_mutual_exclusion 1000 ["w1", "w2", "w3"] stPend
     (by decide)).2.1⟩

/-- C8: A `requirement_extraction` task whose task_data carries
`requirement_ids = []`, run against a store with no unprocessed
requirement rows (`extracted_checklist` non-NULL everywhere), makes its
handler report 0% then 100% progress and return
`{requirements_processed: 0, items_extracted: 0}`, and the dispatcher
makes exactly one `complete_task` call carrying exactly that payload. -/
theorem requirement_extraction_empty_scenario (env : Env)
    (extractor : String → String → Option ExtractResult) (hs : Handlers)
    (st : Store) (task : TaskRecord)
    (hh : hs.requirement_extraction = handle_requirement_extraction extractor)
    (hty : task.task_type = "requirement_extraction")
    (hids : task.task_data.requirement_ids = some [])
    (hst : ∀ r ∈ st.grant_requirements, r.extracted_checklist ≠ none) :
    handle_requirement_extraction extractor st task.task_data task.user_id
        task.project_id =
      ([(0, "Starting extraction..."), (100, "No requirements to process")],
       Except.ok [("requirements_processed", 0), ("items_extracted", 0)]) ∧
    (process_task env hs st task).2.countP Event.isComplete = 1 ∧
    Event.completeCall task.id
        [("requirements_processed", 0), ("items_extracted", 0)] ∈
      (process_task env hs st task).2 := by
  have hreq : st.grant_requirements.filter
      (fun r => r.extracted_checklist.isNone) = [] := by
    rw [List.filter_eq_nil_iff]
    intro r hr
    simp only [Option.isNone_iff_eq_none]
    exact hst r hr
  have hhr : handle_requirement_extraction extractor st task.task_data
      task.user_id task.project_id =
      ([(0, "Starting extraction..."), (100, "No requirements to process")],
       Except.ok [("requirements_processed", 0), ("items_extracted", 0)]) := by
    unfold handle_requirement_extraction
    rw [hids]
    simp [hreq]
  have hreg : handlersGet hs task.task_type =
      some (handle_requirement_extraction extractor) := by
    rw [hty, ← hh]
    rfl
  have hev := process_task_events_registered env hs st task
    (handle_requirement_extraction extractor) hreg
  rw [hhr] at hev
  refine ⟨hhr, ?_, ?_⟩
  · rw [hev]
    rfl
  · rw [hev]
    exact List.mem_append_right _ (List.mem_singleton.mpr rfl)

/-- An extractor stub (never consulted in the C8 scenario). -/
def extractor0 : String → String → Option ExtractResult := fun _ _ => none

/-- A registry whose requirement_extraction entry is the real handler. -/
def hsRE : Handlers :=
  ⟨handlerOkNil, handlerOkNil, handlerOkNil, handlerOkNil,
   handle_requirement_extraction extractor0⟩

/-- A claimed `requirement_extraction` task with empty requirement_ids. -/
def taskRE : TaskRecord :=
  ⟨"t3", "requirement_extraction", ⟨some [], some "en"⟩, none, none,
   "processing", 0, none, some "w1", some 900, none, none, none⟩

/-- A requirement row that is already processed. -/
def grDone : GrantRequirement := ⟨"g1", some "req", some "f.pdf", some ["item"]⟩

/-- A store with one task and no unprocessed requirement rows. -/
def stRE : Store := ⟨[taskRE], [grDone]⟩

/-- Witness for C8: the concrete empty scenario makes exactly one
`complete_task` call. -/
theorem requirement_extraction_empty_scenario_witness :
    taskRE.task_data.requirement_ids = some [] ∧
    (∀ r ∈ stRE.grant_requirements, r.extracted_checklist ≠ none) ∧
    (process_task env0 hsRE stRE taskRE).2.countP Event.isComplete = 1 :=
  ⟨rfl, by decide,
   (requirement_extraction_empty_scenario env0 extractor0 hsRE stRE taskRE
     rfl rfl rfl (by decide)).2.1⟩

end GrantWriter
